import Mathlib

/-!
Verification development for the video-transcription-app repository.

The definitions below are a shallow embedding of the Python source:
  * `src/transcription/api.py` (`transcribe_audio` submission endpoint),
  * `src/evaluate/evaluator.py` (`TranscriptionEvaluator.evaluate`),
  * `src/evaluate/cli.py` (`main`),
  * `src/evaluate/services/transcription_service.py`
    (`TranscriptionService.transcribe`),
  * `src/transcription/services/elevenlabs.py`
    (`transcribe_elevenlabs_api` segment building).

Python strings are Lean `String`s, Python lists are Lean `List`s, float
timestamps (never inspected arithmetically by the embedded code, only
copied) are carried as `Int`, raised exceptions are `Except` values, and
database/file-system effects are explicit state records.
-/

/-! ## Python string primitives used by the source -/

/-- Python `str.strip()` restricted to whitespace: drop whitespace from both
ends (embedded via the character list of the string). -/
def pyStrip (s : String) : String :=
  ⟨((s.data.dropWhile Char.isWhitespace).reverse.dropWhile Char.isWhitespace).reverse⟩

/-- Python `str.rstrip()`: drop trailing whitespace. -/
def pyRstrip (s : String) : String :=
  ⟨(s.data.reverse.dropWhile Char.isWhitespace).reverse⟩

/-- Python `s and not s.endswith(" ")` on a string `s`: true when `s` is
nonempty and its last character is not a space.  Used by the segment
builder to decide whether to insert a separating space before a word. -/
def needSpace (s : String) : Bool :=
  match s.data.getLast? with
  | some c => c != ' '
  | none => false

/-- Python `word_text.rstrip().endswith((".", "?", "!"))`. -/
def endsSentence (s : String) : Bool :=
  match (pyRstrip s).data.getLast? with
  | some c => c == '.' || c == '?' || c == '!'
  | none => false

/-- `s` contains at least one non-whitespace character (so Python's
`s.strip()` is truthy). -/
def hasNonWs (s : String) : Bool :=
  s.data.any (fun c => !c.isWhitespace)

/-- Split a character list at whitespace characters (each whitespace char
ends a piece). -/
def splitWsChars (l : List Char) : List (List Char) :=
  l.foldr (fun c acc =>
    if c.isWhitespace then [] :: acc
    else
      match acc with
      | [] => [[c]]
      | w :: ws => (c :: w) :: ws) []

/-- Whitespace normalization, as the spec's phrase "whitespace-normalized
concatenation" reads: split on whitespace, drop empty pieces, rejoin with
single spaces.  Used only to state claims, never as an embedding of code. -/
def normalizeWs (s : String) : String :=
  String.intercalate " "
    (((splitWsChars s.data).filter (fun w => w ≠ [])).map (fun w => ⟨w⟩))

/-! ## Job submission (`src/transcription/api.py`, `transcribe_audio`)

The Django models `MediaFile` and `Transcription` become records; the
database becomes explicit lists.  `Transcription.objects.filter(...).first()`
becomes `List.find?`; `MediaFile.objects.get` raising `DoesNotExist`
becomes the `none` branch of a `match`. -/

/-- The four job statuses of `Transcription.STATUS_CHOICES`
(`src/transcription/models.py`). -/
inductive Status
  | pending
  | processing
  | completed
  | failed
deriving DecidableEq

/-- A row of the `MediaFile` table (the fields the submission path reads). -/
structure MediaFile where
  id : Nat
  fileHash : String
deriving DecidableEq

/-- A row of the `Transcription` table (the fields the submission path
reads or writes).  `segments` is the stored JSON payload, kept opaque. -/
structure Transcription where
  id : Nat
  mediaFile : Nat
  service : String
  language : String
  status : Status
  segments : Option String
  errorMessage : Option String
deriving DecidableEq

/-- The database state seen by the endpoint, with a fresh-id counter. -/
structure Db where
  mediaFiles : List MediaFile
  transcriptions : List Transcription
  nextId : Nat
deriving DecidableEq

/-- The three 200-responses `transcribe_audio` can produce. -/
inductive SubmitResponse
  | foundExisting (transcriptionId : Nat) (data : Option String) (status : Status)
  | inProgress (transcriptionId : Nat) (status : Status)
  | queued (transcriptionId : Nat)
deriving DecidableEq

/-- The transcription id carried by a submit response. -/
def SubmitResponse.tid : SubmitResponse → Nat
  | .foundExisting i _ _ => i
  | .inProgress i _ => i
  | .queued i => i

/-- What one call to the endpoint did: its response, the database after the
call, whether `async_task(process_transcription, ...)` was enqueued, and
whether the uploaded temp audio file was deleted before returning. -/
structure SubmitOutcome where
  resp : SubmitResponse
  db : Db
  enqueued : Bool
  tempFileDeleted : Bool
deriving DecidableEq

/-- Lines 182–199 of `api.py`: create a `Transcription` with
`status="processing"` (the literal keyword argument in the source, despite
the comment above it saying "pending status") and enqueue the worker task.
The temp file is handed to the worker, not deleted here. -/
def createAndEnqueue (db : Db) (mediaFileId : Nat) (service language : String) :
    SubmitOutcome :=
  let t : Transcription :=
    ⟨db.nextId, mediaFileId, service, language, .processing, none, none⟩
  ⟨.queued t.id,
   { db with transcriptions := db.transcriptions ++ [t], nextId := db.nextId + 1 },
   true, false⟩

/-- `transcribe_audio` (lines 130–210 of `src/transcription/api.py`), after
the uploaded file has been written to a temp file and hashed to `fileHash`:
look up the `MediaFile` by hash; if found, look for an existing
transcription for `(media_file, service, language)`; a `completed` one is
returned with its segments, any other existing one is returned as already
in progress; otherwise a `MediaFile` is created if needed and a new
transcription is created and enqueued.  No non-exception path deletes the
temp file (`os.remove` appears only in the `except` handler). -/
def transcribe_audio (db : Db) (fileHash service language : String) :
    SubmitOutcome :=
  match db.mediaFiles.find? (fun m => m.fileHash == fileHash) with
  | some mf =>
    match db.transcriptions.find? (fun t =>
        t.mediaFile == mf.id && t.service == service && t.language == language) with
    | some existing =>
      if existing.status = .completed then
        ⟨.foundExisting existing.id existing.segments existing.status, db,
         false, false⟩
      else
        ⟨.inProgress existing.id existing.status, db, false, false⟩
    | none => createAndEnqueue db mf.id service language
  | none =>
    let mf : MediaFile := ⟨db.nextId, fileHash⟩
    let db' : Db :=
      { db with mediaFiles := db.mediaFiles ++ [mf], nextId := db.nextId + 1 }
    createAndEnqueue db' mf.id service language

/-- A database with one media file and one `processing` job for it. -/
def dbProcessing : Db :=
  ⟨[⟨0, "hash0"⟩], [⟨1, 0, "whisperx", "auto", .processing, none, none⟩], 2⟩

/-- A database with one media file and one `failed` job for it. -/
def dbFailed : Db :=
  ⟨[⟨0, "hash0"⟩], [⟨1, 0, "whisperx", "auto", .failed, none, none⟩], 2⟩

/-- A database whose only job for the key is `completed`. -/
def dbCompleted : Db :=
  ⟨[⟨0, "hash0"⟩], [⟨1, 0, "whisperx", "auto", .completed, some "segs", none⟩], 2⟩

/-! ## Evaluation harness (`src/evaluate/evaluator.py`,
`TranscriptionEvaluator.evaluate`)

The pandas CSV round trip is abstracted to the record list it carries:
`get_processed_ids` yields the set of `sample_id`s of the existing rows
(`set(df["sample_id"])`, embedded as `List.dedup`) together with the rows
themselves.  A provider call is a function from the sample index to
`Except`, where `.error` models a raised exception.  Each call to
`dataset.save_results` is recorded as a snapshot in `saves`. -/

/-- One persisted evaluation row (the fields the claims are about). -/
structure EvalRecord where
  sampleId : Nat
  response : String
deriving DecidableEq

/-- What a run of `evaluate` did: the in-memory result list it returned,
every snapshot written by `save_results` in order, the sample ids on which
the provider was invoked in order, and whether an exception escaped to the
caller. -/
structure EvalOutcome where
  finalResults : List EvalRecord
  saves : List (List EvalRecord)
  transcribed : List Nat
  raised : Bool
deriving DecidableEq

/-- The `for i, sample in enumerate(dataset_data)` loop of `evaluate`
(lines 82–138): skip indices already processed, break once
`processed_count >= samples_to_process`, otherwise call the provider and
on success append the record and save the whole accumulated list; on a
provider exception print and `break` — the exception is caught, so
`raised` is `false` on every exit of the loop. -/
def evalLoop (provider : Nat → Except String String) (processed : List Nat)
    (quota : Int) :
    Nat → Nat → List EvalRecord → List (List EvalRecord) → List Nat →
    List String → EvalOutcome
  | _, _, results, saves, transcribed, [] => ⟨results, saves, transcribed, false⟩
  | i, cnt, results, saves, transcribed, _ :: rest =>
    if i ∈ processed then
      evalLoop provider processed quota (i + 1) cnt results saves transcribed rest
    else if quota ≤ (cnt : Int) then
      ⟨results, saves, transcribed, false⟩
    else
      match provider i with
      | .ok resp =>
        let results' := results ++ [⟨i, resp⟩]
        evalLoop provider processed quota (i + 1) (cnt + 1) results'
          (saves ++ [results']) (transcribed ++ [i]) rest
      | .error _ => ⟨results, saves, transcribed ++ [i], false⟩

/-- `TranscriptionEvaluator.evaluate` (lines 34–145), given the loaded
dataset `dataData`, the existing rows read back from the results CSV, and
the `limit` argument: compute the processed-id set and the remaining
quota (`limit - len(processed)` when `limit > 0`, else
`len(dataset_data) - len(processed)`); if the quota is non-positive return
the existing rows unchanged, else run the loop starting from the existing
rows. -/
def TranscriptionEvaluator.evaluate (provider : Nat → Except String String)
    (dataData : List String) (existing : List EvalRecord) (limit : Int) :
    EvalOutcome :=
  let processed := (existing.map (fun r => r.sampleId)).dedup
  let quota : Int :=
    if 0 < limit then limit - processed.length
    else (dataData.length : Int) - processed.length
  if quota ≤ 0 then ⟨existing, [], [], false⟩
  else evalLoop provider processed quota 0 0 existing [] [] dataData

/-- A provider that raises on every sample. -/
def providerAlwaysFails : Nat → Except String String := fun _ => .error "boom"

/-- Concrete pre-existing rows for samples 0, 1, 2. -/
def existingRows : List EvalRecord := [⟨0, "a"⟩, ⟨1, "b"⟩, ⟨2, "c"⟩]

/-- A provider that succeeds on every sample. -/
def providerAlwaysOk : Nat → Except String String := fun _ => .ok "resp"

/-! ## Evaluation CLI (`src/evaluate/cli.py`, `main`) and service dispatch
(`src/evaluate/services/transcription_service.py`) -/

/-- Python exception kinds raised by the embedded code. -/
inductive PyErr
  | typeError
  | valueError
deriving DecidableEq

/-- The positional parameters of `TranscriptionEvaluator.__init__` after
`self` (`src/evaluate/evaluator.py` lines 13–18): `dataset`, `service`,
`results_dir`. -/
def evaluatorInitParams : List String := ["dataset", "service", "results_dir"]

/-- How many of those parameters have no default (`results_dir` has one). -/
def evaluatorInitRequired : Nat := 2

/-- Python positional-argument binding: the call succeeds iff the number of
arguments is at least the number of parameters without defaults and at
most the number of positional parameters; otherwise `TypeError`. -/
def bindPositional (params : List String) (required numArgs : Nat) : Bool :=
  required ≤ numArgs && numArgs ≤ params.length

/-- `cli.py` line 76 passes four positional arguments:
`TranscriptionEvaluator(dataset, service, None, args.results_dir)`. -/
def mainEvaluatorArgCount : Nat := 4

/-- The parsed command-line arguments of the evaluation CLI. -/
structure CliArgs where
  service : String
  dataset : String
  language : String
  mode : String
deriving DecidableEq

/-- What a run of `main` did: the exception it raised (if any) and how many
samples were transcribed before it ended. -/
structure MainOutcome where
  result : Except PyErr Unit
  samplesProcessed : Nat

/-- `main` of `src/evaluate/cli.py` (lines 58–90), parameterized by what
the `evaluate`/`report` modes would do once an evaluator exists (`run`):
pick the dataset (an unknown name raises `ValueError`), build the service,
then construct the evaluator with four positional arguments; if that
raises, `main` ends with no sample processed. -/
def cliMain (args : CliArgs) (run : CliArgs → Nat) : MainOutcome :=
  if args.dataset = "common_voice" ∨ args.dataset = "callhome" then
    if bindPositional evaluatorInitParams evaluatorInitRequired
        mainEvaluatorArgCount then
      ⟨.ok (), run args⟩
    else ⟨.error .typeError, 0⟩
  else ⟨.error .valueError, 0⟩

/-- The evaluation harness's service wrapper: it stores
`service_name.lower()`. -/
structure TranscriptionService where
  serviceName : String
deriving DecidableEq

/-- `TranscriptionService.__init__`. -/
def TranscriptionService.init (name : String) : TranscriptionService :=
  ⟨name.toLower⟩

/-- The three provider modules `transcription.services` exposes. -/
inductive ProviderFn
  | elevenlabs
  | google
  | whisperx
deriving DecidableEq

/-- The invocation `transcribe` makes of the underlying provider function:
which function, the audio path, and the language argument passed to it. -/
structure ProviderCall where
  fn : ProviderFn
  audioPath : String
  languageArg : Option String
deriving DecidableEq

/-- `TranscriptionService.transcribe` (lines 23–61 of
`transcription_service.py`): dispatch on the stored service name and call
the provider with the audio path only — every call site reads
`transcribe_xxx_api(audio_path)`, so the provider's `language` parameter
stays at its default `None` and the `language` argument of `transcribe`
is never forwarded.  An unknown name raises `ValueError`. -/
def TranscriptionService.transcribe (svc : TranscriptionService)
    (audioPath : String) (language : Option String) :
    Except PyErr ProviderCall :=
  if svc.serviceName = "elevenlabs" then .ok ⟨.elevenlabs, audioPath, none⟩
  else if svc.serviceName = "google" then .ok ⟨.google, audioPath, none⟩
  else if svc.serviceName = "whisperx" then .ok ⟨.whisperx, audioPath, none⟩
  else .error .valueError

/-! ## Segment building (`src/transcription/services/elevenlabs.py`,
`transcribe_elevenlabs_api`, lines 77–256)

The word-merge loop over `transcription.words` is embedded as a fold with
explicit state.  The source's segment dict has fields `start`, `end`,
`text`, `speaker`, `words`; the Lean `Segment` additionally carries ghost
instrumentation (`sentenceCount`, `flushKind`, `committedLen`) recording
how the segment was produced, used only to state the claims about
"sentences" — it does not influence any visible field. -/

/-- A token of the provider's `words` array: its `type` (`"spacing"` or a
content kind), text, times (`end` is a Lean keyword, hence `stop`),
diarized `speaker_id` and confidence. -/
structure ApiWord where
  tokType : String
  text : String
  start : Int
  stop : Int
  speaker : String
  confidence : Int
deriving DecidableEq

/-- The `word_obj` dict built for each content token (lines 127–133). -/
structure WordObj where
  start : Int
  stop : Int
  word : String
  speaker : String
  score : Int
deriving DecidableEq

/-- Which `finalize_segment` call emitted a segment (ghost). -/
inductive FlushKind
  | speakerChange
  | overflow
  | overlong
  | endOfStream
deriving DecidableEq

/-- An output segment; first five fields are the source dict, the last
three are ghost: how many sentence buffers with nonempty text were merged
into `text`, which flush emitted it, and the length of the committed
`prev_sentences_text` at flush time. -/
structure Segment where
  start : Int
  stop : Int
  text : String
  speaker : Option String
  words : List WordObj
  sentenceCount : Nat
  flushKind : FlushKind
  committedLen : Nat
deriving DecidableEq

/-- `current_segment_info` (its `start` is mutated, `speaker` only set). -/
structure SegInfo where
  start : Int
  speaker : String
deriving DecidableEq

/-- The scan state of the word-merge loop: emitted segments, the open
logical segment, the current speaker, the committed sentence buffer
(`prev_sentences_text` / `prev_sentences_words`, with its ghost sentence
count) and the in-progress sentence buffer. -/
structure BuilderState where
  segments : List Segment
  segInfo : Option SegInfo
  currentSpeaker : Option String
  prevText : String
  prevWords : List WordObj
  prevSentences : Nat
  curText : String
  curWords : List WordObj
deriving DecidableEq

/-- The initial state (lines 82–92). -/
def initBuilderState : BuilderState := ⟨[], none, none, "", [], 0, "", []⟩

/-- `finalize_segment` (lines 95–107): append the segment only when the
stripped text is nonempty and the word list is nonempty. -/
def finalizeSegment (segs : List Segment) (text : String)
    (wordsList : List WordObj) (startT stopT : Int) (speaker : Option String)
    (ghostSent : Nat) (ghostKind : FlushKind) (ghostCommitted : Nat) :
    List Segment :=
  if pyStrip text ≠ "" ∧ wordsList ≠ [] then
    segs ++ [⟨startT, stopT, pyStrip text, speaker, wordsList, ghostSent,
      ghostKind, ghostCommitted⟩]
  else segs

/-- `prev_sentences_words[-1]["end"]`; callers only index a nonempty list,
so the `0` default is unreachable. -/
def lastStop (ws : List WordObj) : Int :=
  match ws.getLast? with
  | some w => w.stop
  | none => 0

/-- `current_segment_info["start"]`; the source reads it only when the
info dict exists, so the `0` default is unreachable. -/
def segStart (info : Option SegInfo) : Int :=
  match info with
  | some i => i.start
  | none => 0

/-- `current_segment_info["start"] = v`. -/
def updateStart (info : Option SegInfo) (v : Int) : Option SegInfo :=
  info.map (fun i => { i with start := v })

/-- Build the `word_obj` dict of a content token. -/
def mkWordObj (w : ApiWord) : WordObj :=
  ⟨w.start, w.stop, w.text, w.speaker, w.confidence⟩

/-- `current_speaker is not None and speaker_id != current_speaker`. -/
def speakerChanged (cur : Option String) (speakerId : String) : Bool :=
  match cur with
  | some cs => speakerId != cs
  | none => false

/-- Lines 140–174: on the first content token or a speaker change, flush
the whole open segment (committed buffer plus the still-open sentence) and
reset the segment state for the new speaker. -/
def speakerFlushPhase (st : BuilderState) (w : ApiWord) : BuilderState :=
  if st.segInfo = none ∨ speakerChanged st.currentSpeaker w.speaker then
    let segs :=
      match st.segInfo with
      | some info =>
        let finalWords := st.prevWords ++ st.curWords
        let lastEnd :=
          match finalWords.getLast? with
          | some lw => lw.stop
          | none => info.start
        finalizeSegment st.segments (st.prevText ++ st.curText) finalWords
          info.start lastEnd st.currentSpeaker
          (st.prevSentences + (if st.curText = "" then 0 else 1))
          .speakerChange st.prevText.length
      | none => st.segments
    { segments := segs
      segInfo := some ⟨w.start, w.speaker⟩
      currentSpeaker := some w.speaker
      prevText := ""
      prevWords := []
      prevSentences := 0
      curText := ""
      curWords := [] }
  else st

/-- Lines 177–181: append the word to the in-progress sentence, inserting
a space when the sentence text is nonempty and does not already end in
one. -/
def appendWordPhase (st : BuilderState) (w : ApiWord) : BuilderState :=
  { st with
    curText := (if needSpace st.curText then st.curText ++ " "
      else st.curText) ++ w.text
    curWords := st.curWords ++ [mkWordObj w] }

/-- Lines 190–214: merge the just-closed sentence into the committed
buffer when the combination fits within `max_segment_length` or the buffer
is empty; otherwise flush the committed buffer alone as a segment, reset
the open segment's start to the sentence's first word, and make the
sentence the new committed buffer. -/
def sentenceMergePhase (maxLen : Nat) (st : BuilderState) : BuilderState :=
  if (st.prevText ++ st.curText).length ≤ maxLen ∨ st.prevText = "" then
    { st with
      prevText := st.prevText ++ st.curText
      prevWords := st.prevWords ++ st.curWords
      prevSentences := st.prevSentences +
        (if st.curText = "" then 0 else 1) }
  else
    let segs := finalizeSegment st.segments st.prevText st.prevWords
      (segStart st.segInfo) (lastStop st.prevWords) st.currentSpeaker
      st.prevSentences .overflow st.prevText.length
    let newStart :=
      match st.curWords.head? with
      | some cw => cw.start
      | none => segStart st.segInfo
    { st with
      segments := segs
      segInfo := updateStart st.segInfo newStart
      prevText := st.curText
      prevWords := st.curWords
      prevSentences := if st.curText = "" then 0 else 1 }

/-- Lines 216–218: reset the in-progress sentence buffer. -/
def resetCurPhase (st : BuilderState) : BuilderState :=
  { st with curText := "", curWords := [] }

/-- Lines 220–242 ("Logic Point 2"): if the committed buffer alone now
exceeds `max_segment_length`, flush it immediately as its own segment and
advance the next segment's nominal start to the following token (when one
exists). -/
def overlongPhase (maxLen : Nat) (st : BuilderState) (rest : List ApiWord) :
    BuilderState :=
  if maxLen < st.prevText.length ∧ st.prevWords ≠ [] then
    let segs := finalizeSegment st.segments st.prevText st.prevWords
      (segStart st.segInfo) (lastStop st.prevWords) st.currentSpeaker
      st.prevSentences .overlong st.prevText.length
    let st5 := { st with
      segments := segs
      prevText := ""
      prevWords := []
      prevSentences := 0 }
    match rest with
    | n :: _ => { st5 with segInfo := updateStart st5.segInfo n.start }
    | [] => st5
  else st

/-- Lines 188–242, run when the token closes a sentence or is the last
token. -/
def sentenceClosePhase (maxLen : Nat) (st : BuilderState)
    (rest : List ApiWord) : BuilderState :=
  overlongPhase maxLen (resetCurPhase (sentenceMergePhase maxLen st)) rest

/-- One iteration of the `for i, word in enumerate(transcription.words)`
loop (lines 111–242).  `rest` is the remainder of the stream, so
`rest.isEmpty` is `i == num_words - 1` and the head of `rest` is
`words[i + 1]`.  Spacing tokens only extend an open sentence's text. -/
def step (maxLen : Nat) (st : BuilderState) (w : ApiWord)
    (rest : List ApiWord) : BuilderState :=
  if w.tokType = "spacing" then
    if st.curWords ≠ [] then { st with curText := st.curText ++ w.text }
    else st
  else
    let st2 := appendWordPhase (speakerFlushPhase st w) w
    if endsSentence w.text || rest.isEmpty then
      sentenceClosePhase maxLen st2 rest
    else st2

/-- The whole loop. -/
def processTokens (maxLen : Nat) (st : BuilderState) :
    List ApiWord → BuilderState
  | [] => st
  | w :: rest => processTokens maxLen (step maxLen st w rest) rest

/-- Lines 244–256: after the loop, flush the remaining committed buffer
and in-progress sentence as the final segment (only when words remain). -/
def finishSegments (st : BuilderState) : List Segment :=
  match st.segInfo with
  | none => st.segments
  | some info =>
    let finalWords := st.prevWords ++ st.curWords
    match finalWords.getLast? with
    | some lw =>
      finalizeSegment st.segments (st.prevText ++ st.curText) finalWords
        info.start lw.stop st.currentSpeaker
        (st.prevSentences + (if st.curText = "" then 0 else 1))
        .endOfStream st.prevText.length
    | none => st.segments

/-- The segmentation performed by `transcribe_elevenlabs_api` on the
provider's `words` array, with the `max_segment_length` parameter
(source default 200). -/
def buildSegments (maxLen : Nat) (tokens : List ApiWord) : List Segment :=
  finishSegments (processTokens maxLen initBuilderState tokens)

/-! ### Claims C3 and C4 about the segment builder -/

/-- Token stream: speaker A says a short sentence and then starts a second
sentence that speaker B interrupts. -/
def tokensInterrupted : List ApiWord :=
  [⟨"word", "a.", 0, 1, "A", 0⟩, ⟨"word", "bb", 1, 2, "A", 0⟩,
   ⟨"word", "c", 2, 3, "B", 0⟩]

/-- Adjacent content tokens with no spacing token between them. -/
def tokensNoSpacing : List ApiWord :=
  [⟨"word", "a", 0, 1, "A", 0⟩, ⟨"word", "b", 1, 2, "A", 0⟩]

/-- The length-policy statement of claim C3 (amended), per segment. -/
def segPolicy (maxLen : Nat) (seg : Segment) : Prop :=
  (seg.text.length ≤ maxLen ∨ seg.sentenceCount = 1 ∨
    seg.flushKind = .speakerChange ∨ seg.flushKind = .endOfStream) ∧
  ((seg.flushKind = .speakerChange ∨ seg.flushKind = .endOfStream) →
    seg.committedLen ≤ maxLen)

/-- Scan invariant for the length policy: the committed buffer never
exceeds `maxLen`, its ghost sentence count is 0 when its text is empty,
and every emitted segment satisfies the policy. -/
def C3Inv (maxLen : Nat) (st : BuilderState) : Prop :=
  st.prevText.length ≤ maxLen ∧
  (st.prevText = "" → st.prevSentences = 0) ∧
  ∀ seg ∈ st.segments, segPolicy maxLen seg

/-- The first segment the builder emits on `tokensInterrupted` with
`max_segment_length = 3`. -/
def segInterruptedA : Segment :=
  ⟨0, 2, "a.bb", some "A", [⟨0, 1, "a.", "A", 0⟩, ⟨1, 2, "bb", "A", 0⟩], 2,
    .speakerChange, 2⟩

/-- The `word_obj`s of the content (non-spacing) tokens of a stream, in
order. -/
def contentWords (tokens : List ApiWord) : List WordObj :=
  tokens.filterMap (fun w =>
    if w.tokType = "spacing" then none else some (mkWordObj w))

/-- All words currently held by the builder: the emitted segments' words
followed by the committed and in-progress buffers. -/
def totalWords (st : BuilderState) : List WordObj :=
  (st.segments.map (fun s => s.words)).flatten ++ st.prevWords ++ st.curWords

/-- Scan invariant for word preservation: a nonempty buffer's text has a
non-whitespace character (so a flush never drops it), and before the
first content token the buffers are empty. -/
def C4Inv (st : BuilderState) : Prop :=
  (st.curWords ≠ [] → hasNonWs st.curText = true) ∧
  (st.prevWords ≠ [] → hasNonWs st.prevText = true) ∧
  (st.segInfo = none → st.prevWords = [] ∧ st.curWords = [])

theorem dropWhile_any_nonWs (l : List Char) :
    (l.dropWhile Char.isWhitespace).any (fun c => !c.isWhitespace)
      = l.any (fun c => !c.isWhitespace) := by
  induction l with
  | nil => rfl
  | cons c t ih =>
    by_cases h : Char.isWhitespace c
    · simp [List.dropWhile, h, ih]
    · simp [List.dropWhile, h]

/-- A string with a non-whitespace character does not strip to empty. -/
theorem pyStrip_ne_empty_of_hasNonWs (s : String) (h : hasNonWs s = true) :
    pyStrip s ≠ "" := by
  intro hc
  have hdata : (((s.data.dropWhile Char.isWhitespace).reverse.dropWhile
      Char.isWhitespace).reverse) = ([] : List Char) := by
    have := congrArg String.data hc
    simpa [pyStrip] using this
  have h2 : (((s.data.dropWhile Char.isWhitespace).reverse.dropWhile
      Char.isWhitespace)).any (fun c => !c.isWhitespace) = true := by
    have h1 : ((s.data.dropWhile Char.isWhitespace).reverse).any
        (fun c => !c.isWhitespace) = true := by
      rw [List.any_reverse, dropWhile_any_nonWs]
      simpa [hasNonWs] using h
    rw [dropWhile_any_nonWs]
    exact h1
  rw [List.reverse_eq_nil_iff] at hdata
  rw [hdata] at h2
  simp at h2

/-- Stripping never lengthens a string. -/
theorem pyStrip_length_le (s : String) : (pyStrip s).length ≤ s.length := by
  have h1 : (((s.data.dropWhile Char.isWhitespace).reverse.dropWhile
      Char.isWhitespace).reverse).length ≤ s.data.length := by
    calc (((s.data.dropWhile Char.isWhitespace).reverse.dropWhile
          Char.isWhitespace).reverse).length
        = ((s.data.dropWhile Char.isWhitespace).reverse.dropWhile
          Char.isWhitespace).length := by rw [List.length_reverse]
      _ ≤ ((s.data.dropWhile Char.isWhitespace).reverse).length :=
          (List.dropWhile_sublist _).length_le
      _ = (s.data.dropWhile Char.isWhitespace).length := List.length_reverse _
      _ ≤ s.data.length := (List.dropWhile_sublist _).length_le
  exact h1

/-! ### Claims C1, C2, C7, C8 about the submission endpoint -/

/-- C1: for every database state holding a media file for the submitted
hash and an existing transcription for the dedup key
`(media_file, service, language)`: while that job is non-terminal, submit
returns its id both times, changes nothing and enqueues nothing; once it
is `completed`, submit returns the completed job's segments with no new
job and no provider invocation. -/
theorem c1_idempotent_submission (db : Db) (h service language : String)
    (mf : MediaFile) (t : Transcription)
    (hmf : db.mediaFiles.find? (fun m => m.fileHash == h) = some mf)
    (ht : db.transcriptions.find? (fun tr =>
      tr.mediaFile == mf.id && tr.service == service &&
        tr.language == language) = some t) :
    (t.status = .pending ∨ t.status = .processing →
      (transcribe_audio db h service language).resp.tid = t.id ∧
      (transcribe_audio db h service language).db = db ∧
      (transcribe_audio db h service language).enqueued = false ∧
      (transcribe_audio (transcribe_audio db h service language).db h service
        language).resp.tid = t.id ∧
      (transcribe_audio (transcribe_audio db h service language).db h service
        language).db = db) ∧
    (t.status = .completed →
      (transcribe_audio db h service language).resp =
        .foundExisting t.id t.segments t.status ∧
      (transcribe_audio db h service language).db = db ∧
      (transcribe_audio db h service language).enqueued = false) := by
  constructor
  · intro hs
    have hne : ¬ t.status = .completed := by
      rcases hs with h1 | h1 <;> simp [h1]
    simp [transcribe_audio, hmf, ht, hne, SubmitResponse.tid]
  · intro hs
    simp [transcribe_audio, hmf, ht, hs]

/-- Witness for C1 at a concrete database with a `processing` job. -/
theorem c1_witness :
    (transcribe_audio dbProcessing "hash0" "whisperx" "auto").resp.tid = 1 ∧
    (transcribe_audio dbProcessing "hash0" "whisperx" "auto").db =
      dbProcessing ∧
    (transcribe_audio dbProcessing "hash0" "whisperx" "auto").enqueued =
      false := by
  have h := c1_idempotent_submission dbProcessing "hash0" "whisperx" "auto"
    ⟨0, "hash0"⟩ ⟨1, 0, "whisperx", "auto", .processing, none, none⟩ rfl rfl
  have h2 := h.1 (Or.inr rfl)
  exact ⟨h2.1, h2.2.1, h2.2.2.1⟩

/-- C2 fails on the code: with a `failed` job for the dedup key, resubmitting
neither creates a new job nor enqueues a provider execution (the endpoint's
`elif existing` branch returns the failed job as "already in progress"). -/
theorem c2_counterexample :
    ¬ ((transcribe_audio dbFailed "hash0" "whisperx" "auto").db.transcriptions.length
        = dbFailed.transcriptions.length + 1 ∨
      (transcribe_audio dbFailed "hash0" "whisperx" "auto").enqueued = true) := by
  decide

/-- C2 amended: if the job found for the dedup key is `failed`, submit
returns that failed job (as "already in progress", carrying its `failed`
status), leaves the database unchanged and enqueues nothing. -/
theorem c2_failed_job_blocks_resubmission (db : Db)
    (h service language : String) (mf : MediaFile) (t : Transcription)
    (hmf : db.mediaFiles.find? (fun m => m.fileHash == h) = some mf)
    (ht : db.transcriptions.find? (fun tr =>
      tr.mediaFile == mf.id && tr.service == service &&
        tr.language == language) = some t)
    (hs : t.status = .failed) :
    (transcribe_audio db h service language).resp = .inProgress t.id .failed ∧
    (transcribe_audio db h service language).db = db ∧
    (transcribe_audio db h service language).enqueued = false := by
  simp [transcribe_audio, hmf, ht, hs]

/-- Witness for the amended C2 at a concrete database with a `failed` job. -/
theorem c2_witness :
    (transcribe_audio dbFailed "hash0" "whisperx" "auto").resp =
      .inProgress 1 .failed ∧
    (transcribe_audio dbFailed "hash0" "whisperx" "auto").db = dbFailed ∧
    (transcribe_audio dbFailed "hash0" "whisperx" "auto").enqueued = false :=
  c2_failed_job_blocks_resubmission dbFailed "hash0" "whisperx" "auto"
    ⟨0, "hash0"⟩ ⟨1, 0, "whisperx", "auto", .failed, none, none⟩ rfl rfl rfl

/-- C7 is violated by the code: submitting a fresh asset (empty database)
stores the newly created transcription with status `processing`, not
`pending` — `api.py` passes `status="processing"` although the comment
above it and the model's default say "pending". -/
theorem c7_created_job_status_is_processing :
    ((transcribe_audio ⟨[], [], 0⟩ "hash0" "whisperx" "auto").db.transcriptions.map
      (fun t => t.status)) = [.processing] := by
  decide

/-- C8 is violated by the code: on the dedup-hit exit path (an upload whose
hash already has a completed transcription) `transcribe_audio` returns
without deleting the uploaded temp file — `os.remove` appears only in the
`except` handler, so this early return leaks the file. -/
theorem c8_dedup_hit_leaks_temp_file :
    (transcribe_audio dbCompleted "hash0" "whisperx" "auto").resp =
      .foundExisting 1 (some "segs") .completed ∧
    (transcribe_audio dbCompleted "hash0" "whisperx" "auto").tempFileDeleted =
      false := by
  decide

/-! ### Claims C5 and C6 about the evaluation loop -/

/-- C5: starting from a results table whose rows are samples 0, 1, 2 and
running with `limit = 5` on a dataset of at least 5 samples, exactly
samples 3 and 4 are transcribed, every save keeps the three existing rows
as an unchanged prefix, and the final result list is the existing rows
extended by the two new ones. -/
theorem c5_evaluation_resumability (provider : Nat → Except String String)
    (dataData : List String) (existing : List EvalRecord) (r3 r4 : String)
    (hids : existing.map (fun r => r.sampleId) = [0, 1, 2])
    (hlen : 5 ≤ dataData.length)
    (h3 : provider 3 = .ok r3) (h4 : provider 4 = .ok r4) :
    (TranscriptionEvaluator.evaluate provider dataData existing 5).transcribed
      = [3, 4] ∧
    (TranscriptionEvaluator.evaluate provider dataData existing 5).finalResults
      = existing ++ [⟨3, r3⟩, ⟨4, r4⟩] ∧
    (TranscriptionEvaluator.evaluate provider dataData existing 5).saves
      = [existing ++ [⟨3, r3⟩], existing ++ [⟨3, r3⟩, ⟨4, r4⟩]] ∧
    (TranscriptionEvaluator.evaluate provider dataData existing 5).raised
      = false := by
  have hded : (existing.map (fun r => r.sampleId)).dedup = [0, 1, 2] := by
    rw [hids]; decide
  rcases dataData with _ | ⟨a, _ | ⟨b, _ | ⟨c, _ | ⟨d, _ | ⟨e, rest⟩⟩⟩⟩⟩ <;>
    simp only [List.length_nil, List.length_cons] at hlen <;> try omega
  rcases rest with _ | ⟨f, rest'⟩ <;>
    simp [TranscriptionEvaluator.evaluate, hded, evalLoop, h3, h4]

/-- Invariant of `evalLoop`: the loop never lets an exception escape, every
save it performs extends the result list it started from, the final result
list extends it as well, and every sample on which the provider was invoked
either succeeded or is the last one invoked (the loop breaks at the first
provider exception). -/
theorem evalLoop_inv (provider : Nat → Except String String)
    (processed : List Nat) (quota : Int) :
    ∀ (samples : List String) (i cnt : Nat) (results : List EvalRecord)
      (saves : List (List EvalRecord)) (tr : List Nat),
    (∀ j ∈ tr, ∃ r, provider j = .ok r) →
    (evalLoop provider processed quota i cnt results saves tr samples).raised
      = false ∧
    (∀ s ∈ (evalLoop provider processed quota i cnt results saves tr
        samples).saves, s ∈ saves ∨ ∃ t, s = results ++ t) ∧
    (∃ t, (evalLoop provider processed quota i cnt results saves tr
        samples).finalResults = results ++ t) ∧
    (∀ j ∈ (evalLoop provider processed quota i cnt results saves tr
        samples).transcribed, (∃ r, provider j = .ok r) ∨
      (evalLoop provider processed quota i cnt results saves tr
        samples).transcribed.getLast? = some j) := by
  intro samples
  induction samples with
  | nil =>
    intro i cnt results saves tr h
    exact ⟨rfl, fun s hs => Or.inl hs, ⟨[], by simp [evalLoop]⟩,
      fun j hj => Or.inl (h j hj)⟩
  | cons x rest ih =>
    intro i cnt results saves tr h
    by_cases hmem : i ∈ processed
    · have heq : evalLoop provider processed quota i cnt results saves tr
          (x :: rest)
          = evalLoop provider processed quota (i + 1) cnt results saves tr
            rest := by
        simp [evalLoop, hmem]
      rw [heq]
      exact ih (i + 1) cnt results saves tr h
    · by_cases hq : quota ≤ (cnt : Int)
      · have heq : evalLoop provider processed quota i cnt results saves tr
            (x :: rest) = ⟨results, saves, tr, false⟩ := by
          simp [evalLoop, hmem, hq]
        rw [heq]
        exact ⟨rfl, fun s hs => Or.inl hs, ⟨[], by simp⟩,
          fun j hj => Or.inl (h j hj)⟩
      · cases hp : provider i with
        | ok r =>
          have heq : evalLoop provider processed quota i cnt results saves tr
              (x :: rest)
              = evalLoop provider processed quota (i + 1) (cnt + 1)
                (results ++ [⟨i, r⟩]) (saves ++ [results ++ [⟨i, r⟩]])
                (tr ++ [i]) rest := by
            simp [evalLoop, hmem, hq, hp]
          have h' : ∀ j ∈ tr ++ [i], ∃ s, provider j = .ok s := by
            intro j hj
            rcases List.mem_append.mp hj with hj | hj
            · exact h j hj
            · exact ⟨r, (List.mem_singleton.mp hj) ▸ hp⟩
          obtain ⟨h1, h2, h3, h4⟩ := ih (i + 1) (cnt + 1) (results ++ [⟨i, r⟩])
            (saves ++ [results ++ [⟨i, r⟩]]) (tr ++ [i]) h'
          rw [heq]
          refine ⟨h1, ?_, ?_, h4⟩
          · intro s hs
            rcases h2 s hs with hs' | ⟨t, ht⟩
            · rcases List.mem_append.mp hs' with h'' | h''
              · exact Or.inl h''
              · exact Or.inr ⟨[⟨i, r⟩], List.mem_singleton.mp h''⟩
            · exact Or.inr ⟨⟨i, r⟩ :: t, by rw [ht]; simp⟩
          · obtain ⟨t, ht⟩ := h3
            exact ⟨⟨i, r⟩ :: t, by rw [ht]; simp⟩
        | error e =>
          have heq : evalLoop provider processed quota i cnt results saves tr
              (x :: rest) = ⟨results, saves, tr ++ [i], false⟩ := by
            simp [evalLoop, hmem, hq, hp]
          rw [heq]
          refine ⟨rfl, fun s hs => Or.inl hs, ⟨[], by simp⟩, ?_⟩
          intro j hj
          rcases List.mem_append.mp hj with hj' | hj'
          · exact Or.inl (h j hj')
          · refine Or.inr ?_
            rw [List.mem_singleton.mp hj']
            show (tr ++ [i]).getLast? = some i
            simp
/-- Both branches of `evaluate` (quota exhausted / run the loop) satisfy
the C6 properties, for any quota value. -/
theorem evaluate_branch_inv (provider : Nat → Except String String)
    (dataData : List String) (existing : List EvalRecord) (q : Int) :
    (if q ≤ 0 then (⟨existing, [], [], false⟩ : EvalOutcome)
      else evalLoop provider ((existing.map (fun r => r.sampleId)).dedup) q
        0 0 existing [] [] dataData).raised = false ∧
    (∀ s ∈ (if q ≤ 0 then (⟨existing, [], [], false⟩ : EvalOutcome)
      else evalLoop provider ((existing.map (fun r => r.sampleId)).dedup) q
        0 0 existing [] [] dataData).saves, ∃ t, s = existing ++ t) ∧
    (∃ t, (if q ≤ 0 then (⟨existing, [], [], false⟩ : EvalOutcome)
      else evalLoop provider ((existing.map (fun r => r.sampleId)).dedup) q
        0 0 existing [] [] dataData).finalResults = existing ++ t) ∧
    (∀ j ∈ (if q ≤ 0 then (⟨existing, [], [], false⟩ : EvalOutcome)
      else evalLoop provider ((existing.map (fun r => r.sampleId)).dedup) q
        0 0 existing [] [] dataData).transcribed,
      (∃ r, provider j = .ok r) ∨
      (if q ≤ 0 then (⟨existing, [], [], false⟩ : EvalOutcome)
        else evalLoop provider ((existing.map (fun r => r.sampleId)).dedup) q
          0 0 existing [] [] dataData).transcribed.getLast? = some j) := by
  by_cases h0 : q ≤ 0
  · rw [if_pos h0]
    exact ⟨rfl, fun s hs => absurd hs (by simp), ⟨[], by simp⟩,
      fun j hj => absurd hj (by simp)⟩
  · rw [if_neg h0]
    obtain ⟨h1, h2, h3, h4⟩ := evalLoop_inv provider
      ((existing.map (fun r => r.sampleId)).dedup) q dataData 0 0 existing
      [] [] (by intro j hj; exact absurd hj (by simp))
    refine ⟨h1, ?_, h3, h4⟩
    intro s hs
    rcases h2 s hs with h' | h'
    · exact absurd h' (by simp)
    · exact h'

/-- C6 amended: on a provider exception the loop stops immediately (every
invoked sample other than the last invoked one succeeded), all previously
persisted snapshots keep the pre-existing rows as an unchanged prefix —
but the exception is caught (`except ... print ... break`), so `evaluate`
returns the partial result set normally and no error ever propagates to
the caller. -/
theorem c6_loop_stops_and_swallows (provider : Nat → Except String String)
    (dataData : List String) (existing : List EvalRecord) (limit : Int) :
    (TranscriptionEvaluator.evaluate provider dataData existing limit).raised
      = false ∧
    (∀ s ∈ (TranscriptionEvaluator.evaluate provider dataData existing
        limit).saves, ∃ t, s = existing ++ t) ∧
    (∃ t, (TranscriptionEvaluator.evaluate provider dataData existing
        limit).finalResults = existing ++ t) ∧
    (∀ j ∈ (TranscriptionEvaluator.evaluate provider dataData existing
        limit).transcribed, (∃ r, provider j = .ok r) ∨
      (TranscriptionEvaluator.evaluate provider dataData existing
        limit).transcribed.getLast? = some j) :=
  evaluate_branch_inv provider dataData existing
    (if 0 < limit then
      limit - (((existing.map (fun r => r.sampleId)).dedup.length : Nat) : Int)
    else (dataData.length : Int) -
      (((existing.map (fun r => r.sampleId)).dedup.length : Nat) : Int))

/-- C6 fails on the code as stated: with a provider that raises on the very
first sample, `evaluate` attempts sample 0, stops, and returns normally —
`raised = false`, so the error is never surfaced to the harness caller. -/
theorem c6_counterexample :
    (TranscriptionEvaluator.evaluate providerAlwaysFails ["s"] [] 1).raised
      = false ∧
    (TranscriptionEvaluator.evaluate providerAlwaysFails ["s"] [] 1).transcribed
      = [0] ∧
    (TranscriptionEvaluator.evaluate providerAlwaysFails ["s"] [] 1).finalResults
      = [] := by
  decide

/-- Witness for C5 at a concrete five-sample dataset. -/
theorem c5_witness :
    (TranscriptionEvaluator.evaluate providerAlwaysOk
      ["s0", "s1", "s2", "s3", "s4"] existingRows 5).transcribed = [3, 4] ∧
    (TranscriptionEvaluator.evaluate providerAlwaysOk
      ["s0", "s1", "s2", "s3", "s4"] existingRows 5).finalResults
      = existingRows ++ [⟨3, "resp"⟩, ⟨4, "resp"⟩] := by
  have h := c5_evaluation_resumability providerAlwaysOk
    ["s0", "s1", "s2", "s3", "s4"] existingRows "resp" "resp" rfl
    (by decide) rfl rfl
  exact ⟨h.1, h.2.1⟩

/-- C9: for every valid CLI invocation (any service, language, mode, and a
dataset accepted by argparse's choices), `main` raises `TypeError` while
constructing the evaluator — four positional arguments against three
parameters — before any sample is processed, so the CLI never completes an
evaluation or report. -/
theorem c9_cli_init_type_error (args : CliArgs) (run : CliArgs → Nat)
    (hvalid : args.dataset = "common_voice" ∨ args.dataset = "callhome") :
    cliMain args run = ⟨.error .typeError, 0⟩ := by
  unfold cliMain
  rw [if_pos hvalid]
  have hb : bindPositional evaluatorInitParams evaluatorInitRequired
      mainEvaluatorArgCount = false := by decide
  rw [hb]
  simp

/-- Witness for C9 at a concrete default-style invocation. -/
theorem c9_witness :
    cliMain ⟨"elevenlabs", "common_voice", "en", "evaluate"⟩ (fun _ => 7)
      = ⟨.error .typeError, 0⟩ :=
  c9_cli_init_type_error ⟨"elevenlabs", "common_voice", "en", "evaluate"⟩
    (fun _ => 7) (Or.inl rfl)

/-- C10: `TranscriptionService.transcribe` never forwards its language
argument: for any service and audio path, any two language values yield
the identical provider invocation, so the harness always transcribes with
provider-side auto-detection. -/
theorem c10_language_never_forwarded (svc : TranscriptionService)
    (audioPath : String) (l1 l2 : Option String) :
    svc.transcribe audioPath l1 = svc.transcribe audioPath l2 := rfl

/-- C3 fails on the code: with `max_segment_length = 3`, the speaker-change
flush emits the segment `"a.bb"` of length 4, built from two sentence
buffers (the committed sentence `"a."` plus the open sentence `"bb"`) —
an over-long segment that was not built from exactly one sentence. -/
theorem c3_counterexample :
    ¬ (∀ seg ∈ buildSegments 3 tokensInterrupted,
        seg.text.length ≤ 3 ∨ seg.sentenceCount = 1) := by
  decide

/-- C4 fails on the code: the builder inserts a space between adjacent
content tokens, so the concatenated segment texts (`"a b"`) differ from
the whitespace-normalized concatenation of the input token texts
(`"ab"`). -/
theorem c4_counterexample :
    ¬ (String.join ((buildSegments 200 tokensNoSpacing).map
        (fun s => s.text))
      = normalizeWs (String.join (tokensNoSpacing.map (fun w => w.text)))) := by
  decide

/-- Membership in the result of `finalizeSegment`: either an old segment,
or the newly flushed one. -/
theorem mem_finalizeSegment {segs : List Segment} {text : String}
    {wordsList : List WordObj} {startT stopT : Int} {speaker : Option String}
    {gs : Nat} {gk : FlushKind} {gc : Nat} {seg : Segment}
    (h : seg ∈ finalizeSegment segs text wordsList startT stopT speaker
      gs gk gc) :
    seg ∈ segs ∨
      seg = ⟨startT, stopT, pyStrip text, speaker, wordsList, gs, gk, gc⟩ := by
  unfold finalizeSegment at h
  split at h
  · rcases List.mem_append.mp h with h' | h'
    · exact Or.inl h'
    · exact Or.inr (List.mem_singleton.mp h')
  · exact Or.inl h

theorem c3inv_speakerFlush (maxLen : Nat) (st : BuilderState) (w : ApiWord)
    (h : C3Inv maxLen st) : C3Inv maxLen (speakerFlushPhase st w) := by
  obtain ⟨h1, h2, h3⟩ := h
  unfold speakerFlushPhase
  split
  · refine ⟨by simp, by simp, ?_⟩
    intro seg hseg
    cases hinfo : st.segInfo with
    | none =>
      rw [hinfo] at hseg
      exact h3 seg hseg
    | some info =>
      rw [hinfo] at hseg
      rcases mem_finalizeSegment hseg with h' | h'
      · exact h3 seg h'
      · subst h'
        exact ⟨Or.inr (Or.inr (Or.inl rfl)), fun _ => h1⟩
  · exact ⟨h1, h2, h3⟩

theorem c3inv_appendWord (maxLen : Nat) (st : BuilderState) (w : ApiWord)
    (h : C3Inv maxLen st) : C3Inv maxLen (appendWordPhase st w) := h

/-- After the merge phase (on a state whose sentence buffer is nonempty),
the committed buffer has words, its count is 0 on empty text and 1
whenever the buffer overflows, and all emitted segments satisfy the
policy. -/
theorem c3_mergePhase (maxLen : Nat) (st : BuilderState)
    (hcur : st.curWords ≠ []) (h : C3Inv maxLen st) :
    (sentenceMergePhase maxLen st).prevWords ≠ [] ∧
    ((sentenceMergePhase maxLen st).prevText = "" →
      (sentenceMergePhase maxLen st).prevSentences = 0) ∧
    (maxLen < (sentenceMergePhase maxLen st).prevText.length →
      (sentenceMergePhase maxLen st).prevSentences = 1) ∧
    ∀ seg ∈ (sentenceMergePhase maxLen st).segments, segPolicy maxLen seg := by
  obtain ⟨h1, h2, h3⟩ := h
  unfold sentenceMergePhase
  split
  · rename_i hm
    refine ⟨by simp [hcur], ?_, ?_, h3⟩
    · intro hemp
      simp only at hemp ⊢
      have hpe : st.prevText = "" := by
        have := congrArg String.data hemp
        rw [String.data_append] at this
        have hp := List.append_eq_nil.mp this
        exact String.ext hp.1
      have hce : st.curText = "" := by
        have := congrArg String.data hemp
        rw [String.data_append] at this
        have hp := List.append_eq_nil.mp this
        exact String.ext hp.2
      simp [hce, h2 hpe]
    · intro hlong
      simp only at hlong ⊢
      rcases hm with hm | hm
      · omega
      · have hc : st.curText ≠ "" := by
          intro hce
          rw [hm, hce] at hlong
          simp at hlong
        simp [hc, h2 hm]
  · rename_i hm
    push_neg at hm
    refine ⟨by simpa using hcur, ?_, ?_, ?_⟩
    · intro hemp
      simp only at hemp ⊢
      simp [hemp]
    · intro _
      simp only
      have hc : st.curText ≠ "" := by
        intro hce
        have := hm.1
        rw [hce] at this
        simp at this
        omega
      simp [hc]
    · intro seg hseg
      simp only at hseg
      rcases mem_finalizeSegment hseg with h' | h'
      · exact h3 seg h'
      · subst h'
        refine ⟨Or.inl ?_, by simp [segPolicy]⟩
        calc (pyStrip st.prevText).length ≤ st.prevText.length :=
            pyStrip_length_le _
          _ ≤ maxLen := h1

theorem c3inv_sentenceClose (maxLen : Nat) (st : BuilderState)
    (rest : List ApiWord) (hcur : st.curWords ≠ []) (h : C3Inv maxLen st) :
    C3Inv maxLen (sentenceClosePhase maxLen st rest) := by
  obtain ⟨hw, he, hp1, hsegs⟩ := c3_mergePhase maxLen st hcur h
  unfold sentenceClosePhase overlongPhase
  by_cases hp2 : maxLen <
      (resetCurPhase (sentenceMergePhase maxLen st)).prevText.length ∧
      (resetCurPhase (sentenceMergePhase maxLen st)).prevWords ≠ []
  · rw [if_pos hp2]
    have hcount : (sentenceMergePhase maxLen st).prevSentences = 1 :=
      hp1 hp2.1
    have hsegs' : ∀ seg ∈ finalizeSegment
        (resetCurPhase (sentenceMergePhase maxLen st)).segments
        (resetCurPhase (sentenceMergePhase maxLen st)).prevText
        (resetCurPhase (sentenceMergePhase maxLen st)).prevWords
        (segStart (resetCurPhase (sentenceMergePhase maxLen st)).segInfo)
        (lastStop (resetCurPhase (sentenceMergePhase maxLen st)).prevWords)
        (resetCurPhase (sentenceMergePhase maxLen st)).currentSpeaker
        (resetCurPhase (sentenceMergePhase maxLen st)).prevSentences
        .overlong
        (resetCurPhase (sentenceMergePhase maxLen st)).prevText.length,
        segPolicy maxLen seg := by
      intro seg hseg
      rcases mem_finalizeSegment hseg with h' | h'
      · exact hsegs seg h'
      · subst h'
        exact ⟨Or.inr (Or.inl hcount), by simp [segPolicy]⟩
    cases rest with
    | nil => exact ⟨by simp, by simp, hsegs'⟩
    | cons n rest' => exact ⟨by simp, by simp, hsegs'⟩
  · rw [if_neg hp2]
    refine ⟨?_, he, hsegs⟩
    rcases Decidable.not_and_iff_or_not.mp hp2 with h' | h'
    · exact Nat.le_of_not_lt h'
    · exact absurd hw h'

theorem c3inv_step (maxLen : Nat) (st : BuilderState) (w : ApiWord)
    (rest : List ApiWord) (h : C3Inv maxLen st) :
    C3Inv maxLen (step maxLen st w rest) := by
  unfold step
  split
  · split
    · exact h
    · exact h
  · split
    · exact c3inv_sentenceClose maxLen _ rest (by simp [appendWordPhase])
        (c3inv_appendWord maxLen _ w (c3inv_speakerFlush maxLen st w h))
    · exact c3inv_appendWord maxLen _ w (c3inv_speakerFlush maxLen st w h)

theorem c3inv_processTokens (maxLen : Nat) :
    ∀ (toks : List ApiWord) (st : BuilderState), C3Inv maxLen st →
      C3Inv maxLen (processTokens maxLen st toks) := by
  intro toks
  induction toks with
  | nil => exact fun st h => h
  | cons w rest ih =>
    intro st h
    exact ih (step maxLen st w rest) (c3inv_step maxLen st w rest h)

theorem finishSegments_none (segs : List Segment) (cs : Option String)
    (pt : String) (pw : List WordObj) (ps : Nat) (ct : String)
    (cw : List WordObj) :
    finishSegments ⟨segs, none, cs, pt, pw, ps, ct, cw⟩ = segs := rfl

theorem finishSegments_some (segs : List Segment) (info : SegInfo)
    (cs : Option String) (pt : String) (pw : List WordObj) (ps : Nat)
    (ct : String) (cw : List WordObj) :
    finishSegments ⟨segs, some info, cs, pt, pw, ps, ct, cw⟩
      = match (pw ++ cw).getLast? with
        | some lw => finalizeSegment segs (pt ++ ct) (pw ++ cw) info.start
            lw.stop cs (ps + if ct = "" then 0 else 1) .endOfStream pt.length
        | none => segs := rfl

theorem c3inv_finish (maxLen : Nat) (st : BuilderState)
    (h : C3Inv maxLen st) :
    ∀ seg ∈ finishSegments st, segPolicy maxLen seg := by
  obtain ⟨segs, sinfo, cs, pt, pw, ps, ct, cw⟩ := st
  obtain ⟨h1, h2, h3⟩ := h
  intro seg hseg
  cases sinfo with
  | none => exact h3 seg hseg
  | some info =>
    rw [finishSegments_some] at hseg
    rcases hl : (pw ++ cw).getLast? with _ | lw
    · rw [hl] at hseg
      exact h3 seg hseg
    · rw [hl] at hseg
      rcases mem_finalizeSegment hseg with h' | h'
      · exact h3 seg h'
      · subst h'
        exact ⟨Or.inr (Or.inr (Or.inr rfl)), fun _ => h1⟩

/-- C3 amended: every segment flushed at a sentence boundary respects the
length bound unless it was built from exactly one sentence; a segment
flushed by a speaker change or at end of stream may exceed the bound (it
appends the still-open sentence), but its committed part — the sentences
already closed — never exceeds `max_segment_length`. -/
theorem c3_segment_length_bound (maxLen : Nat) (tokens : List ApiWord) :
    ∀ seg ∈ buildSegments maxLen tokens,
      (seg.text.length ≤ maxLen ∨ seg.sentenceCount = 1 ∨
        seg.flushKind = .speakerChange ∨ seg.flushKind = .endOfStream) ∧
      ((seg.flushKind = .speakerChange ∨ seg.flushKind = .endOfStream) →
        seg.committedLen ≤ maxLen) := by
  have hinit : C3Inv maxLen initBuilderState :=
    ⟨by simp [initBuilderState], fun _ => rfl,
      by intro seg hseg; simp [initBuilderState] at hseg⟩
  exact c3inv_finish maxLen _
    (c3inv_processTokens maxLen tokens initBuilderState hinit)

/-- Witness for the amended C3 at the concrete over-long speaker-change
segment. -/
theorem c3_witness :
    segInterruptedA ∈ buildSegments 3 tokensInterrupted ∧
    ((segInterruptedA.text.length ≤ 3 ∨ segInterruptedA.sentenceCount = 1 ∨
      segInterruptedA.flushKind = .speakerChange ∨
      segInterruptedA.flushKind = .endOfStream) ∧
     ((segInterruptedA.flushKind = .speakerChange ∨
       segInterruptedA.flushKind = .endOfStream) →
      segInterruptedA.committedLen ≤ 3)) :=
  ⟨by decide, c3_segment_length_bound 3 tokensInterrupted segInterruptedA
    (by decide)⟩

theorem hasNonWs_append (s t : String) :
    hasNonWs (s ++ t) = (hasNonWs s || hasNonWs t) := by
  simp [hasNonWs, String.data_append, List.any_append]

/-- A flush with the non-whitespace guarantee loses no words. -/
theorem finalizeSegment_words (segs : List Segment) (text : String)
    (wordsList : List WordObj) (startT stopT : Int) (speaker : Option String)
    (gs : Nat) (gk : FlushKind) (gc : Nat)
    (hk : wordsList ≠ [] → hasNonWs text = true) :
    ((finalizeSegment segs text wordsList startT stopT speaker gs gk
        gc).map (fun s => s.words)).flatten
      = (segs.map (fun s => s.words)).flatten ++ wordsList := by
  by_cases hw : wordsList = []
  · subst hw
    unfold finalizeSegment
    rw [if_neg (by simp)]
    simp
  · have hstrip := pyStrip_ne_empty_of_hasNonWs text (hk hw)
    unfold finalizeSegment
    rw [if_pos ⟨hstrip, hw⟩]
    simp

theorem c4_speakerFlush (st : BuilderState) (w : ApiWord) (h : C4Inv st) :
    C4Inv (speakerFlushPhase st w) ∧
    totalWords (speakerFlushPhase st w) = totalWords st ∧
    (speakerFlushPhase st w).segInfo ≠ none := by
  obtain ⟨h1, h2, h3⟩ := h
  unfold speakerFlushPhase
  split
  · refine ⟨⟨by simp, by simp, by simp⟩, ?_, by simp⟩
    cases hinfo : st.segInfo with
    | none =>
      obtain ⟨hpw, hcw⟩ := h3 hinfo
      simp [totalWords, hpw, hcw]
    | some info =>
      have hk : st.prevWords ++ st.curWords ≠ [] →
          hasNonWs (st.prevText ++ st.curText) = true := by
        intro hne
        rw [hasNonWs_append]
        by_cases hp : st.prevWords = []
        · rw [hp] at hne
          simp only [List.nil_append] at hne
          simp [h1 hne]
        · simp [h2 hp]
      simp only [totalWords]
      rw [finalizeSegment_words _ _ _ _ _ _ _ _ _ hk]
      simp [List.append_assoc]
  · rename_i hcond
    push_neg at hcond
    exact ⟨⟨h1, h2, h3⟩, rfl, hcond.1⟩

theorem c4_appendWord (st : BuilderState) (w : ApiWord) (h : C4Inv st)
    (hnw : hasNonWs w.text = true) (hinfo : st.segInfo ≠ none) :
    C4Inv (appendWordPhase st w) ∧
    totalWords (appendWordPhase st w) = totalWords st ++ [mkWordObj w] ∧
    (appendWordPhase st w).segInfo ≠ none := by
  refine ⟨⟨?_, h.2.1, fun hc => absurd hc hinfo⟩, ?_, hinfo⟩
  · intro _
    show hasNonWs ((if needSpace st.curText then st.curText ++ " "
      else st.curText) ++ w.text) = true
    rw [hasNonWs_append, hnw]
    simp
  · simp [totalWords, appendWordPhase]

theorem c4_mergeReset (maxLen : Nat) (st : BuilderState) (h : C4Inv st)
    (hinfo : st.segInfo ≠ none) :
    C4Inv (resetCurPhase (sentenceMergePhase maxLen st)) ∧
    totalWords (resetCurPhase (sentenceMergePhase maxLen st))
      = totalWords st ∧
    (resetCurPhase (sentenceMergePhase maxLen st)).segInfo ≠ none := by
  obtain ⟨h1, h2, h3⟩ := h
  unfold sentenceMergePhase
  split
  · refine ⟨⟨by simp [resetCurPhase], ?_, fun hc => absurd hc hinfo⟩, ?_,
      hinfo⟩
    · intro hne
      show hasNonWs (st.prevText ++ st.curText) = true
      rw [hasNonWs_append]
      by_cases hp : st.prevWords = []
      · have hc : st.curWords ≠ [] := by
          intro hc
          apply hne
          show st.prevWords ++ st.curWords = []
          rw [hp, hc]
          rfl
        simp [h1 hc]
      · simp [h2 hp]
    · simp [totalWords, resetCurPhase, List.append_assoc]
  · obtain ⟨info, hi⟩ := Option.ne_none_iff_exists'.mp hinfo
    refine ⟨⟨by simp [resetCurPhase], ?_, ?_⟩, ?_, ?_⟩
    · intro hne
      exact h1 hne
    · intro hc
      rw [hi] at hc
      simp [updateStart, resetCurPhase] at hc
    · show ((finalizeSegment st.segments st.prevText st.prevWords
          (segStart st.segInfo) (lastStop st.prevWords) st.currentSpeaker
          st.prevSentences .overflow st.prevText.length).map
            (fun s => s.words)).flatten ++ st.curWords ++ []
        = totalWords st
      rw [finalizeSegment_words _ _ _ _ _ _ _ _ _ h2]
      simp [totalWords, List.append_assoc]
    · show updateStart st.segInfo _ ≠ none
      rw [hi]
      simp [updateStart]

theorem c4_overlong (maxLen : Nat) (st : BuilderState) (rest : List ApiWord)
    (h : C4Inv st) (hinfo : st.segInfo ≠ none) :
    C4Inv (overlongPhase maxLen st rest) ∧
    totalWords (overlongPhase maxLen st rest) = totalWords st ∧
    (overlongPhase maxLen st rest).segInfo ≠ none := by
  obtain ⟨h1, h2, h3⟩ := h
  obtain ⟨info, hi⟩ := Option.ne_none_iff_exists'.mp hinfo
  unfold overlongPhase
  split
  · have hflat : ((finalizeSegment st.segments st.prevText st.prevWords
        (segStart st.segInfo) (lastStop st.prevWords) st.currentSpeaker
        st.prevSentences .overlong st.prevText.length).map
          (fun s => s.words)).flatten
        = (st.segments.map (fun s => s.words)).flatten ++ st.prevWords :=
      finalizeSegment_words _ _ _ _ _ _ _ _ _ h2
    cases rest with
    | nil =>
      refine ⟨⟨h1, by simp, fun hc => absurd hc hinfo⟩, ?_, hinfo⟩
      show ((finalizeSegment st.segments st.prevText st.prevWords
          (segStart st.segInfo) (lastStop st.prevWords) st.currentSpeaker
          st.prevSentences .overlong st.prevText.length).map
            (fun s => s.words)).flatten ++ [] ++ st.curWords
        = totalWords st
      rw [hflat]
      simp [totalWords]
    | cons n rest' =>
      refine ⟨⟨h1, by simp, ?_⟩, ?_, ?_⟩
      · intro hc
        rw [hi] at hc
        simp [updateStart] at hc
      · show ((finalizeSegment st.segments st.prevText st.prevWords
            (segStart st.segInfo) (lastStop st.prevWords) st.currentSpeaker
            st.prevSentences .overlong st.prevText.length).map
              (fun s => s.words)).flatten ++ [] ++ st.curWords
          = totalWords st
        rw [hflat]
        simp [totalWords]
      · show updateStart st.segInfo _ ≠ none
        rw [hi]
        simp [updateStart]
  · exact ⟨⟨h1, h2, h3⟩, rfl, hinfo⟩

theorem c4_close (maxLen : Nat) (st : BuilderState) (rest : List ApiWord)
    (h : C4Inv st) (hinfo : st.segInfo ≠ none) :
    C4Inv (sentenceClosePhase maxLen st rest) ∧
    totalWords (sentenceClosePhase maxLen st rest) = totalWords st ∧
    (sentenceClosePhase maxLen st rest).segInfo ≠ none := by
  obtain ⟨ha, hb, hc⟩ := c4_mergeReset maxLen st h hinfo
  obtain ⟨hd, he, hf⟩ := c4_overlong maxLen
    (resetCurPhase (sentenceMergePhase maxLen st)) rest ha hc
  exact ⟨hd, by rw [sentenceClosePhase, he, hb], hf⟩

theorem c4_step (maxLen : Nat) (st : BuilderState) (w : ApiWord)
    (rest : List ApiWord) (h : C4Inv st)
    (hnw : w.tokType ≠ "spacing" → hasNonWs w.text = true) :
    C4Inv (step maxLen st w rest) ∧
    totalWords (step maxLen st w rest)
      = totalWords st ++
        (if w.tokType = "spacing" then [] else [mkWordObj w]) := by
  obtain ⟨h1, h2, h3⟩ := h
  unfold step
  by_cases hsp : w.tokType = "spacing"
  · rw [if_pos hsp, if_pos hsp]
    by_cases hcw : st.curWords ≠ []
    · rw [if_pos hcw]
      refine ⟨⟨?_, h2, ?_⟩, by simp [totalWords]⟩
      · intro _
        show hasNonWs (st.curText ++ w.text) = true
        rw [hasNonWs_append, h1 hcw]
        simp
      · intro hc
        exact absurd (h3 hc).2 (by simpa using hcw)
    · rw [if_neg hcw]
      exact ⟨⟨h1, h2, h3⟩, by simp⟩
  · rw [if_neg hsp, if_neg hsp]
    obtain ⟨ha1, ha2, ha3⟩ := c4_speakerFlush st w ⟨h1, h2, h3⟩
    obtain ⟨hb1, hb2, hb3⟩ := c4_appendWord (speakerFlushPhase st w) w ha1
      (hnw hsp) ha3
    split
    · obtain ⟨hc1, hc2, _⟩ := c4_close maxLen
        (appendWordPhase (speakerFlushPhase st w) w) rest hb1 hb3
      exact ⟨hc1, by rw [hc2, hb2, ha2]⟩
    · exact ⟨hb1, by rw [hb2, ha2]⟩

theorem c4_processTokens (maxLen : Nat) :
    ∀ (toks : List ApiWord) (st : BuilderState), C4Inv st →
      (∀ w ∈ toks, w.tokType ≠ "spacing" → hasNonWs w.text = true) →
      C4Inv (processTokens maxLen st toks) ∧
      totalWords (processTokens maxLen st toks)
        = totalWords st ++ contentWords toks := by
  intro toks
  induction toks with
  | nil => exact fun st h _ => ⟨h, by simp [processTokens, contentWords]⟩
  | cons w rest ih =>
    intro st h hall
    obtain ⟨hs1, hs2⟩ := c4_step maxLen st w rest h
      (hall w (List.mem_cons_self w rest))
    obtain ⟨hp1, hp2⟩ := ih (step maxLen st w rest) hs1
      (fun x hx => hall x (List.mem_cons_of_mem w hx))
    refine ⟨hp1, ?_⟩
    show totalWords (processTokens maxLen (step maxLen st w rest) rest)
      = totalWords st ++ contentWords (w :: rest)
    rw [hp2, hs2]
    by_cases hsp : w.tokType = "spacing" <;>
      simp [contentWords, hsp, List.append_assoc]

theorem c4_finish (st : BuilderState) (h : C4Inv st) :
    ((finishSegments st).map (fun s => s.words)).flatten = totalWords st := by
  obtain ⟨segs, sinfo, cs, pt, pw, ps, ct, cw⟩ := st
  obtain ⟨h1, h2, h3⟩ := h
  cases sinfo with
  | none =>
    obtain ⟨hpw, hcw⟩ := h3 rfl
    simp only at hpw hcw
    subst hpw
    subst hcw
    simp [finishSegments_none, totalWords]
  | some info =>
    rw [finishSegments_some]
    rcases hl : (pw ++ cw).getLast? with _ | lw
    · have : pw ++ cw = [] := by
        cases hx : pw ++ cw with
        | nil => rfl
        | cons a t => rw [hx] at hl; simp [List.getLast?_eq_getLast] at hl
      obtain ⟨hpw, hcw⟩ := List.append_eq_nil.mp this
      simp only at h1 h2 ⊢
      subst hpw
      subst hcw
      simp [totalWords]
    · have hk : pw ++ cw ≠ [] → hasNonWs (pt ++ ct) = true := by
        intro hne
        rw [hasNonWs_append]
        by_cases hp : pw = []
        · subst hp
          simp only [List.nil_append] at hne
          simp only at h1
          simp [h1 hne]
        · simp only at h2
          simp [h2 hp]
      rw [finalizeSegment_words _ _ _ _ _ _ _ _ _ hk]
      simp [totalWords, List.append_assoc]

/-- C4 amended: the builder loses and duplicates no content token — for
every stream whose content tokens each contain a non-whitespace character,
the concatenation, over all output segments in order, of their word lists
equals the stream's content tokens in order (as `word_obj`s).  The
text-level reconstruction of the original claim fails because the builder
inserts its own separating spaces and strips segment edges. -/
theorem c4_content_words_preserved (maxLen : Nat) (tokens : List ApiWord)
    (h : ∀ w ∈ tokens, w.tokType ≠ "spacing" → hasNonWs w.text = true) :
    ((buildSegments maxLen tokens).map (fun s => s.words)).flatten
      = contentWords tokens := by
  have hinit : C4Inv initBuilderState :=
    ⟨by simp [initBuilderState], by simp [initBuilderState],
      fun _ => ⟨rfl, rfl⟩⟩
  obtain ⟨hinv, htot⟩ := c4_processTokens maxLen tokens initBuilderState
    hinit h
  unfold buildSegments
  rw [c4_finish _ hinv, htot]
  simp [totalWords, initBuilderState]

/-- Witness for the amended C4 at a concrete stream. -/
theorem c4_witness :
    (∀ w ∈ tokensInterrupted, w.tokType ≠ "spacing" →
      hasNonWs w.text = true) ∧
    ((buildSegments 3 tokensInterrupted).map (fun s => s.words)).flatten
      = contentWords tokensInterrupted :=
  ⟨by decide, c4_content_words_preserved 3 tokensInterrupted (by decide)⟩
